import Mathlib

/-!
Verification development for the compilation core of the s1vm WebAssembly
engine (src/compiler.rs).  The Rust source is shallowly embedded: machine
integers are modelled as bit patterns (Nat, reduced modulo two to the width
where the code wraps), closures become Lean functions, mutation of the
runtime store becomes explicit state passing, and fallible code returns an
explicit result type.  Rust panics (todo, unreachable, out of bounds
indexing, the depth cap) are modelled by a distinguished panicked outcome,
kept apart from returned compile errors and from runtime traps, exactly as
they are distinct in Rust.
-/

namespace S1vm

/-! ## Numeric helpers: fixed width bit pattern arithmetic -/

/-- Interpret the low 32 bits of a pattern as a signed 32 bit integer,
the effect of the Rust cast of the 64 bit cell with: as i32. -/
def toI32 (n : Nat) : Int :=
  if ((n % 2 ^ 32 : Nat) : Int) < 2 ^ 31 then ((n % 2 ^ 32 : Nat) : Int)
  else ((n % 2 ^ 32 : Nat) : Int) - 2 ^ 32

/-- Interpret the low 64 bits of a pattern as a signed 64 bit integer,
the effect of the Rust cast: as i64. -/
def toI64 (n : Nat) : Int :=
  if ((n % 2 ^ 64 : Nat) : Int) < 2 ^ 63 then ((n % 2 ^ 64 : Nat) : Int)
  else ((n % 2 ^ 64 : Nat) : Int) - 2 ^ 64

/-- Reduce an integer into the signed 32 bit range, the effect of Rust
wrapping arithmetic on i32. -/
def wrap32 (x : Int) : Int := (x + 2 ^ 31) % 2 ^ 32 - 2 ^ 31

/-- Reduce an integer into the signed 64 bit range, the effect of Rust
wrapping arithmetic on i64. -/
def wrap64 (x : Int) : Int := (x + 2 ^ 63) % 2 ^ 64 - 2 ^ 63

/-- The 64 bit pattern of an integer, the effect of the Rust cast of an
i64 (or of an i32 after sign extension through i64) with: as u64. -/
def u64pat (x : Int) : Nat := (x % 2 ^ 64).toNat

/-- The 32 bit pattern of an integer, the effect of the Rust cast of an
i32 with: as u32; zero extended when further cast to u64. -/
def u32pat (x : Int) : Nat := (x % 2 ^ 32).toNat

/-- Two complement AND of an integer with the literal mask 0x1F keeps the
low five bits, which is the value modulo 32 (nonnegative). -/
def and0x1F (x : Int) : Nat := (x % 32).toNat

/-! ## Runtime value cell, traps, store

The stack value type, the trap kinds, the error type and the runtime store
live in sibling modules of the repository that are not part of the given
source; they are modelled from the spec at their interface boundary. -/

/-- Modelled from the spec: a fixed-width (64 bit) runtime value cell
reinterpreted per numeric type.  The field holds the raw bit pattern. -/
structure StackValue where
  bits : Nat
deriving DecidableEq, Repr

/-- Modelled from the spec: runtime trap kinds; division by zero and
invalid (overflowing) conversion must stay distinguishable.  The two
constructors named here are the two named in src/compiler.rs. -/
inductive TrapKind where
  | DivisionByZero
  | InvalidConversionToInt
deriving DecidableEq, Repr

/-- Modelled from the spec: compile-time errors of the compiler; the two
constructors used by src/compiler.rs. -/
inductive Error where
  | ValidationError (msg : String)
  | FuncNotFound
deriving DecidableEq, Repr

/-- Modelled from the spec: declared value types of function results. -/
inductive ValueType where
  | I32
  | I64
  | F32
  | F64
deriving DecidableEq, Repr

/-- Modelled from the spec: the runtime stack owned by the Store, holding
the local variable region and the operand values. -/
structure Stack where
  locals : List StackValue
  values : List StackValue
deriving DecidableEq, Repr

/-- Modelled from the spec: get_local(index) reads a local variable. -/
def Stack.get_local_val (s : Stack) (i : Nat) : StackValue :=
  s.locals.getD i ⟨0⟩

/-- Modelled from the spec: push_value(value) pushes onto the runtime
operand stack before a nested call. -/
def Stack.push_val (s : Stack) (v : StackValue) : Stack :=
  { s with values := v :: s.values }

/-- Modelled from the spec: the runtime Store owns the live stack. -/
structure Store where
  stack : Stack
deriving DecidableEq, Repr

/-- Outcome of running compiled code: normal result, runtime trap, or a
Rust panic (todo, unreachable).  Traps and panics are distinct tracks. -/
inductive RunRes (α : Type) where
  | ok (a : α)
  | trap (k : TrapKind)
  | panicked (msg : String)
deriving DecidableEq, Repr

def RunRes.bind {α β : Type} : RunRes α → (α → RunRes β) → RunRes β
  | .ok a, f => f a
  | .trap k, _ => .trap k
  | .panicked m, _ => .panicked m

instance : Monad RunRes where
  pure := .ok
  bind := RunRes.bind

/-- Control flow result of one step of a compiled Block
(enum Action in src/compiler.rs). -/
inductive Action where
  | Return (v : Option StackValue)
  | End
  | Branch (depth : Nat)
deriving DecidableEq, Repr

/-- Modelled from the spec: the execution context (vm::State) used to
invoke other compiled functions by index; re-entrant, may trap. -/
structure VmState where
  invokeFunction : Store → Nat → RunRes (Option StackValue × Store)

/-- Type of the compiled operand closures (type OpFunc in the source),
with the store mutation made explicit. -/
def OpFunc : Type := VmState → Store → RunRes (StackValue × Store)

/-- Type of the compiled step closures (type EvalFunc in the source). -/
def EvalFunc : Type := VmState → Store → RunRes (Action × Store)

/-- Compile-time symbolic operand (enum Input in src/compiler.rs):
a local read, a literal constant, or an opaque computed closure. -/
inductive Input where
  | Local (idx : Nat)
  | Const (val : StackValue)
  | Op (f : OpFunc)

/-- Input::resolv from src/compiler.rs: materialize a symbolic operand at
run time. -/
def Input.resolv : Input → OpFunc
  | .Local localIdx => fun _ store => .ok (store.stack.get_local_val localIdx, store)
  | .Const constVal => fun _ store => .ok (constVal, store)
  | .Op closure => closure

/-! ## Block: the compiled unit for one structured control region -/

/-- BlockKind from src/compiler.rs. -/
inductive BlockKind where
  | Block
  | Loop
  | If
  | Else
deriving DecidableEq, Repr

/-- struct Block from src/compiler.rs: kind, nesting depth and the ordered
sequence of compiled step closures. -/
structure Block where
  kind : BlockKind
  depth : Nat
  eval : List EvalFunc

/-- The loop body of Block::run: run the steps in order, interpreting each
returned Action exactly as the source does.  A Branch whose target depth
equals this depth hits the todo macro in the source (a panic); a Branch
into a sub-block hits the unreachable macro. -/
def runSteps (bdepth : Nat) (vm : VmState) : List EvalFunc → Store → RunRes (Action × Store)
  | [], store => .ok (.End, store)
  | f :: fs, store =>
    match f vm store with
    | .ok (.Return v, store2) => .ok (.Return v, store2)
    | .ok (.End, store2) => runSteps bdepth vm fs store2
    | .ok (.Branch depth, store2) =>
      if bdepth > depth then .ok (.Branch depth, store2)
      else if bdepth = depth then .panicked "not yet implemented: handle branch"
      else .panicked "Cant branch into a sub-block."
    | .trap k => .trap k
    | .panicked m => .panicked m

/-- Block::run from src/compiler.rs. -/
def Block.run (b : Block) (vm : VmState) (store : Store) : RunRes (Action × Store) :=
  runSteps b.depth vm b.eval store

/-- The invocation closure built by Compiler::compile_function around the
root Block: the outcome must be exactly Return, anything else is the
unreachable macro (a panic). -/
def funcInvoke (b : Block) (vm : VmState) (store : Store) : RunRes (Option StackValue × Store) :=
  match b.run vm store with
  | .ok (.Return retValue, store2) => .ok (retValue, store2)
  | .ok (_, _) => .panicked "Compiled function missing Return action."
  | .trap k => .trap k
  | .panicked m => .panicked m

/-! ## Operation generators (macro impl_int_binops, first form)

The first macro form specializes on the statically known shapes of the two
popped operands; the fall-through at the bottom of the generated function
is the fully generic closure resolving both operands.  The generated code
is identical for every operator body f, so the embedding is parameterized
by f (instantiated below by wrapping_add, wrapping_sub, wrapping_mul,
bitand, bitor, bitxor per width). -/

/-- The generic (slow path) closure at the bottom of the first form of
impl_int_binops: resolve left, resolve right, apply the operator. -/
def binopGeneric (f : StackValue → StackValue → StackValue) (left right : Input) : OpFunc :=
  fun vm store =>
    (left.resolv vm store).bind fun (l, store1) =>
    (right.resolv vm store1).bind fun (r, store2) =>
    .ok (f l r, store2)

/-- The closure pushed by the first form of impl_int_binops, following the
match on (left, right) in the source: Local/Const, Op/Local, Op/Const and
Op/Op get specialized closures, every other shape falls through to the
generic closure. -/
def binopCompiled (f : StackValue → StackValue → StackValue) (left right : Input) : OpFunc :=
  match left, right with
  | .Local leftIdx, .Const rightConst =>
    fun _ store => .ok (f (store.stack.get_local_val leftIdx) rightConst, store)
  | .Op leftClosure, .Local rightIdx =>
    fun vm store =>
      (leftClosure vm store).bind fun (l, store1) =>
      .ok (f l (store1.stack.get_local_val rightIdx), store1)
  | .Op leftClosure, .Const rightConst =>
    fun vm store =>
      (leftClosure vm store).bind fun (l, store1) =>
      .ok (f l rightConst, store1)
  | .Op leftClosure, .Op rightClosure =>
    fun vm store =>
      (leftClosure vm store).bind fun (l, store1) =>
      (rightClosure vm store1).bind fun (r, store2) =>
      .ok (f l r, store2)
  | l, r => binopGeneric f l r

/-- The generic closure of the binary form of impl_int_relops. -/
def relopGeneric (g : StackValue → StackValue → Bool) (left right : Input) : OpFunc :=
  fun vm store =>
    (left.resolv vm store).bind fun (l, store1) =>
    (right.resolv vm store1).bind fun (r, store2) =>
    .ok (⟨if g l r then 1 else 0⟩, store2)

/-- The closure pushed by the binary form of impl_int_relops: only the
Local/Const shape is specialized, everything else is generic. -/
def relopCompiled (g : StackValue → StackValue → Bool) (left right : Input) : OpFunc :=
  match left, right with
  | .Local leftIdx, .Const rightConst =>
    fun _ store => .ok (⟨if g (store.stack.get_local_val leftIdx) rightConst then 1 else 0⟩, store)
  | l, r => relopGeneric g l r

/-! ## Concrete integer operator bodies (impl_numeric_ops instantiations)

impl_numeric_ops is instantiated at (i32, u32) and (i64, u64).  Each
operator body below is the closure body the corresponding macro arm
generates, as a pure function of the two operand cells. -/

/-- i32_ops add: (left.0 as i32).wrapping_add(right.0 as i32) as u64. -/
def i32_add (l r : StackValue) : StackValue :=
  ⟨u64pat (wrap32 (toI32 l.bits + toI32 r.bits))⟩

/-- i32_ops sub: wrapping_sub on i32, result sign extended to the cell. -/
def i32_sub (l r : StackValue) : StackValue :=
  ⟨u64pat (wrap32 (toI32 l.bits - toI32 r.bits))⟩

/-- i32_ops mul: wrapping_mul on i32, result sign extended to the cell. -/
def i32_mul (l r : StackValue) : StackValue :=
  ⟨u64pat (wrap32 (toI32 l.bits * toI32 r.bits))⟩

/-- i64_ops add: wrapping_add on i64, result cast to the cell. -/
def i64_add (l r : StackValue) : StackValue :=
  ⟨u64pat (wrap64 (toI64 l.bits + toI64 r.bits))⟩

/-- i64_ops sub: wrapping_sub on i64. -/
def i64_sub (l r : StackValue) : StackValue :=
  ⟨u64pat (wrap64 (toI64 l.bits - toI64 r.bits))⟩

/-- i64_ops mul: wrapping_mul on i64. -/
def i64_mul (l r : StackValue) : StackValue :=
  ⟨u64pat (wrap64 (toI64 l.bits * toI64 r.bits))⟩

/-- i32_ops lt_s: signed comparison of the two cells as i32. -/
def i32_lt_s (l r : StackValue) : Bool :=
  decide (toI32 l.bits < toI32 r.bits)

/-! ### Shift operators (fifth form of impl_int_binops)

The macro arm is: right = (right.0 as T) & 0x1F; then
left.0 as T wrapping-shifted by (right as u32), result cast to the
unsigned width and zero extended into the cell.  Note the mask literal is
0x1F at both instantiation sites (src/compiler.rs lines 656-658 inside
impl_numeric_ops, instantiated for i32 and for i64 alike). -/

/-- i32_ops shl: mask 0x1F, wrapping_shl on i32 (shift count mod 32),
result as u32 zero extended. -/
def i32_shl (l r : StackValue) : StackValue :=
  let right := and0x1F (toI32 r.bits)
  ⟨u32pat (wrap32 (toI32 l.bits * 2 ^ (right % 32)))⟩

/-- i64_ops shl: mask 0x1F (the same literal), wrapping_shl on i64
(shift count mod 64), result as u64. -/
def i64_shl (l r : StackValue) : StackValue :=
  let right := and0x1F (toI64 r.bits)
  ⟨u64pat (wrap64 (toI64 l.bits * 2 ^ (right % 64)))⟩

/-- i32_ops shr_s: mask 0x1F, wrapping_shr on i32 is an arithmetic right
shift by the count mod 32 (floor division), result as u32. -/
def i32_shr_s (l r : StackValue) : StackValue :=
  let right := and0x1F (toI32 r.bits)
  ⟨u32pat (Int.fdiv (toI32 l.bits) (2 ^ (right % 32)))⟩

/-- i64_ops shr_s: mask 0x1F, arithmetic right shift on i64 by the count
mod 64, result as u64. -/
def i64_shr_s (l r : StackValue) : StackValue :=
  let right := and0x1F (toI64 r.bits)
  ⟨u64pat (Int.fdiv (toI64 l.bits) (2 ^ (right % 64)))⟩

/-- i32_ops shr_u: generated with the same signed type parameter as
shr_s, so it is likewise an arithmetic shift on i32 with mask 0x1F. -/
def i32_shr_u (l r : StackValue) : StackValue :=
  let right := and0x1F (toI32 r.bits)
  ⟨u32pat (Int.fdiv (toI32 l.bits) (2 ^ (right % 32)))⟩

/-- i64_ops shr_u: arithmetic shift on i64 with mask 0x1F. -/
def i64_shr_u (l r : StackValue) : StackValue :=
  let right := and0x1F (toI64 r.bits)
  ⟨u64pat (Int.fdiv (toI64 l.bits) (2 ^ (right % 64)))⟩

/-! ### Division and remainder (impl_int_binops_div)

The macro generates store level functions over the runtime stack through
Stack binop (the stack itself is external to the given source); the
closure passed to binop is embedded here as a pure function of the two
operand cells, which is where the claimed trap behavior lives. -/

/-- Rust checked_div on i32: None on a zero divisor and on the single
overflowing case MIN / -1, otherwise division truncating toward zero. -/
def checked_div32 (a b : Int) : Option Int :=
  if b = 0 ∨ (a = -(2 ^ 31) ∧ b = -1) then none else some (Int.tdiv a b)

/-- Rust checked_rem on i32: None exactly where checked_div is. -/
def checked_rem32 (a b : Int) : Option Int :=
  if b = 0 ∨ (a = -(2 ^ 31) ∧ b = -1) then none else some (Int.tmod a b)

/-- Rust checked_div on i64. -/
def checked_div64 (a b : Int) : Option Int :=
  if b = 0 ∨ (a = -(2 ^ 63) ∧ b = -1) then none else some (Int.tdiv a b)

/-- Rust checked_rem on i64. -/
def checked_rem64 (a b : Int) : Option Int :=
  if b = 0 ∨ (a = -(2 ^ 63) ∧ b = -1) then none else some (Int.tmod a b)

/-- Shared shape of every impl_int_binops_div closure: apply the checked
operation, and on None report DivisionByZero when the right operand is
zero and InvalidConversionToInt otherwise. -/
def divTrapClosure (checked : Int → Int → Option Int) (toI : Nat → Int)
    (l r : StackValue) : Except TrapKind StackValue :=
  match checked (toI l.bits) (toI r.bits) with
  | some res => .ok ⟨u64pat res⟩
  | none =>
    .error (if toI r.bits = 0 then TrapKind.DivisionByZero else TrapKind.InvalidConversionToInt)

/-- i32_ops div_s (checked_div on i32, result as i64 as u64). -/
def i32_div_s (l r : StackValue) : Except TrapKind StackValue :=
  divTrapClosure checked_div32 toI32 l r

/-- i32_ops div_u: the macro is instantiated with the signed type, so it
is also checked_div on i32 (result as u64). -/
def i32_div_u (l r : StackValue) : Except TrapKind StackValue :=
  divTrapClosure checked_div32 toI32 l r

/-- i32_ops rem_s (checked_rem on i32). -/
def i32_rem_s (l r : StackValue) : Except TrapKind StackValue :=
  divTrapClosure checked_rem32 toI32 l r

/-- i32_ops rem_u (checked_rem on i32, same signed instantiation). -/
def i32_rem_u (l r : StackValue) : Except TrapKind StackValue :=
  divTrapClosure checked_rem32 toI32 l r

/-- i64_ops div_s. -/
def i64_div_s (l r : StackValue) : Except TrapKind StackValue :=
  divTrapClosure checked_div64 toI64 l r

/-- i64_ops div_u (signed instantiation, see i32_div_u). -/
def i64_div_u (l r : StackValue) : Except TrapKind StackValue :=
  divTrapClosure checked_div64 toI64 l r

/-- i64_ops rem_s. -/
def i64_rem_s (l r : StackValue) : Except TrapKind StackValue :=
  divTrapClosure checked_rem64 toI64 l r

/-- i64_ops rem_u (signed instantiation). -/
def i64_rem_u (l r : StackValue) : Except TrapKind StackValue :=
  divTrapClosure checked_rem64 toI64 l r

/-! ## The compiler: compile state, instruction dispatch, recursive descent

Compilation can end four ways, mirroring the Rust faithfully: a compiled
value, a returned compile error (the Result error track), a Rust panic
(todo, unreachable, indexing out of bounds, the nesting cap), or fuel
exhaustion of the embedding (the Rust loop has no fuel; every theorem
below either quantifies over sufficient fuel or uses a concrete amount). -/

inductive CResult (α : Type) where
  | ok (a : α)
  | err (e : Error)
  | panicked (msg : String)
  | fuelOut

def CResult.bind {α β : Type} : CResult α → (α → CResult β) → CResult β
  | .ok a, f => f a
  | .err e, _ => .err e
  | .panicked m, _ => .panicked m
  | .fuelOut, _ => .fuelOut

instance : Monad CResult where
  pure := .ok
  bind := CResult.bind

/-- The instruction subset handled by Compiler::compile_block.  Block, Loop
and If carry a block type immediate in the source which the compiler never
reads; it is omitted.  Other stands for every opcode that reaches the
fall-through arm of the dispatch. -/
inductive Instruction where
  | Block
  | Loop
  | If
  | Else
  | End
  | Return
  | Br (blockDepth : Nat)
  | BrIf (blockDepth : Nat)
  | BrTable
  | Call (funcIdx : Nat)
  | GetLocal (localIdx : Nat)
  | I32Const (val : Int)
  | I64Const (val : Int)
  | I32Add
  | I32Sub
  | I32LtS
  | Other
deriving DecidableEq, Repr

/-- struct State from src/compiler.rs: the compile-time symbolic operand
stack (head is the top), the nesting depth and the instruction cursor. -/
structure State where
  values : List Input
  depth : Nat
  pc : Nat

/-- State::pop: popping from an empty symbolic stack is a returned
validation error, never a panic. -/
def State.pop (st : State) : CResult (Input × State) :=
  match st.values with
  | [] => .err (.ValidationError "Value stack empty")
  | v :: rest => .ok (v, { st with values := rest })

/-- State::push. -/
def State.push (st : State) (input : Input) : State :=
  { st with values := input :: st.values }

/-- The fields of struct Compiler that compile_block reads: the declared
return type of the function being compiled, its instruction stream, and
pc_end (set to the code length by compile_function).  The module handle,
the output list and func_idx do not affect block compilation. -/
structure Compiler where
  ret_type : Option ValueType
  code : List Instruction
  pc_end : Nat

/-- The indexing expression self.code[pc]: a Rust slice index panics when
the index is out of bounds. -/
def fetchInst (code : List Instruction) (pc : Nat) : CResult Instruction :=
  match code.get? pc with
  | some op => .ok op
  | none => .panicked "index out of bounds"

/-- The body of the first form of impl_int_binops as a state transformer:
pop right, pop left, push the (possibly specialized) closure. -/
def binopPush (f : StackValue → StackValue → StackValue) (st : State) : CResult State :=
  (st.pop).bind fun (right, st1) =>
  (st1.pop).bind fun (left, st2) =>
  .ok (st2.push (.Op (binopCompiled f left right)))

/-- The body of the binary form of impl_int_relops as a state
transformer. -/
def relopPush (g : StackValue → StackValue → Bool) (st : State) : CResult State :=
  (st.pop).bind fun (right, st1) =>
  (st1.pop).bind fun (left, st2) =>
  .ok (st2.push (.Op (relopCompiled g left right)))

/-- The step closure emitted by Compiler::compile_if, selecting an arm
from the resolved condition cell: zero runs the else arm (or reports End
when there is none), non-zero runs the then arm.  The source matches the
condition operand to skip one indirection when it is already a closure;
the wildcard arm goes through resolv. -/
def ifStep (val : Input) (ifBlock : Block) (elseBlock : Option Block) : EvalFunc :=
  match elseBlock with
  | some eb =>
    (match val with
     | .Op closure => fun vm store =>
        (closure vm store).bind fun (v, store2) =>
        if v.bits = 0 then eb.run vm store2 else ifBlock.run vm store2
     | other => fun vm store =>
        (other.resolv vm store).bind fun (v, store2) =>
        if v.bits = 0 then eb.run vm store2 else ifBlock.run vm store2)
  | none =>
    match val with
    | .Op closure => fun vm store =>
        (closure vm store).bind fun (v, store2) =>
        if v.bits = 0 then .ok (.End, store2) else ifBlock.run vm store2
    | other => fun vm store =>
        (other.resolv vm store).bind fun (v, store2) =>
        if v.bits = 0 then .ok (.End, store2) else ifBlock.run vm store2

/-- The operand closure pushed by the Call arm of compile_block: resolve
the (single) argument, push it on the runtime stack, invoke the callee by
index through the execution context, and yield its result or a zero cell
when the callee returns nothing. -/
def callOp (val : Input) (idx : Nat) : OpFunc := fun vm store =>
  (val.resolv vm store).bind fun (v, store1) =>
  let store2 := { store1 with stack := store1.stack.push_val v }
  (vm.invokeFunction store2 idx).bind fun (ret, store3) =>
  match ret with
  | some r => .ok (r, store3)
  | none => .ok (⟨0⟩, store3)

/-- Compiler::emit_return: when the function declares a return type, pop
the operand and emit a step yielding Return of its resolved value (with a
direct read for Local, the captured constant for Const, the nested closure
for Op); otherwise emit a step yielding Return None. -/
def emitReturn (c : Compiler) (st : State) (blk : Block) : CResult (Block × State) :=
  match c.ret_type with
  | some _ =>
    (st.pop).bind fun (ret, st1) =>
    let step : EvalFunc :=
      match ret with
      | .Local localIdx => fun _ store =>
          .ok (.Return (some ⟨(store.stack.get_local_val localIdx).bits⟩), store)
      | .Const constVal => fun _ store =>
          .ok (.Return (some ⟨constVal.bits⟩), store)
      | .Op closure => fun vm store =>
          (closure vm store).bind fun (v, store2) =>
          .ok (.Return (some ⟨v.bits⟩), store2)
    .ok ({ blk with eval := blk.eval ++ [step] }, st1)
  | none =>
    let step : EvalFunc := fun _ store => .ok (.Return none, store)
    .ok ({ blk with eval := blk.eval ++ [step] }, st)

mutual

/-- Compiler::compile_block: create the Block at the current depth, bump
the depth (panicking past the hard cap of 4), run the dispatch loop, then
restore the depth.  Note that the Block and Loop arms of the loop discard
the child Block returned by the recursive call, exactly as the source
does; only the If arm attaches a step to the parent. -/
def compileBlock (c : Compiler) : Nat → State → BlockKind → CResult (Block × State)
  | 0, _, _ => .fuelOut
  | fuel2 + 1, st, kind =>
    let blk : Block := ⟨kind, st.depth, []⟩
    let st := { st with depth := st.depth + 1 }
    if st.depth > 4 then .panicked "compile overflow"
    else
      (compileIter c fuel2 st kind blk).bind fun (blk2, st2) =>
      .ok (blk2, { st2 with depth := st2.depth - 1 })

/-- The dispatch loop inside Compiler::compile_block.  The loop breaks
when the cursor has passed pc_end; at pc equal to pc_end the instruction
fetch itself is reached (and panics, pc_end being the code length).  Else
and End break without advancing the cursor.  All other arms advance the
cursor by one after their work (the source increments after the match). -/
def compileIter (c : Compiler) : Nat → State → BlockKind → Block → CResult (Block × State)
  | 0, _, _, _ => .fuelOut
  | fuel2 + 1, st, kind, blk =>
    if st.pc > c.pc_end then .ok (blk, st)
    else
      (fetchInst c.code st.pc).bind fun op =>
      match op with
      | .Block =>
        (compileBlock c fuel2 { st with pc := st.pc + 1 } .Block).bind fun (_, st2) =>
        compileIter c fuel2 { st2 with pc := st2.pc + 1 } kind blk
      | .Loop =>
        (compileBlock c fuel2 { st with pc := st.pc + 1 } .Loop).bind fun (_, st2) =>
        compileIter c fuel2 { st2 with pc := st2.pc + 1 } kind blk
      | .If =>
        (compileIf c fuel2 blk { st with pc := st.pc + 1 }).bind fun (blk2, st2) =>
        compileIter c fuel2 { st2 with pc := st2.pc + 1 } kind blk2
      | .Else =>
        match kind with
        | .If => .ok (blk, st)
        | _ => .err (.ValidationError "invalid else block, missing if")
      | .End => .ok (blk, st)
      | .Return =>
        (emitReturn c st blk).bind fun (blk2, st2) =>
        compileIter c fuel2 { st2 with pc := st2.pc + 1 } kind blk2
      | .Br _ => .panicked "not yet implemented"
      | .BrIf _ => .panicked "not yet implemented"
      | .BrTable => .panicked "not yet implemented"
      | .Call idx =>
        (st.pop).bind fun (val, st2) =>
        compileIter c fuel2 { (st2.push (.Op (callOp val idx))) with pc := st2.pc + 1 } kind blk
      | .GetLocal i =>
        compileIter c fuel2 { (st.push (.Local i)) with pc := st.pc + 1 } kind blk
      | .I32Const v =>
        compileIter c fuel2 { (st.push (.Const ⟨u64pat (wrap32 v)⟩)) with pc := st.pc + 1 } kind blk
      | .I64Const v =>
        compileIter c fuel2 { (st.push (.Const ⟨u64pat (wrap64 v)⟩)) with pc := st.pc + 1 } kind blk
      | .I32Add =>
        (binopPush i32_add st).bind fun st2 =>
        compileIter c fuel2 { st2 with pc := st2.pc + 1 } kind blk
      | .I32Sub =>
        (binopPush i32_sub st).bind fun st2 =>
        compileIter c fuel2 { st2 with pc := st2.pc + 1 } kind blk
      | .I32LtS =>
        (relopPush i32_lt_s st).bind fun st2 =>
        compileIter c fuel2 { st2 with pc := st2.pc + 1 } kind blk
      | .Other => .panicked "not yet implemented: implment opcode"

/-- Compiler::compile_if: pop the condition, compile the then Block (kind
If), then look at the instruction under the cursor: on Else compile the
else Block (the cursor still points at the Else opcode, exactly as in the
source), on End there is no else arm, anything other is the unreachable
macro.  Finally push the selection step onto the parent. -/
def compileIf (c : Compiler) : Nat → Block → State → CResult (Block × State)
  | 0, _, _ => .fuelOut
  | fuel2 + 1, parent, st =>
    (st.pop).bind fun (val, st1) =>
    (compileBlock c fuel2 st1 .If).bind fun (ifBlock, st2) =>
    (fetchInst c.code st2.pc).bind fun tok =>
    (match tok with
      | .Else => (compileBlock c fuel2 st2 .Else).bind fun (eb, st3) =>
          (.ok (some eb, st3) : CResult (Option Block × State))
      | .End => .ok (none, st2)
      | _ => .panicked "missing end of If block").bind fun (elseBlock, st4) =>
    .ok ({ parent with eval := parent.eval ++ [ifStep val ifBlock elseBlock] }, st4)

end

/-- Compiler::compile_function, for one function: set up the stream and
pc_end (the code length), compile the whole body as a root Block of kind
Block at depth 0.  The produced Function wraps the root Block in the
funcInvoke closure. -/
def compileFunction (retType : Option ValueType) (code : List Instruction) (fuel : Nat) :
    CResult Block :=
  let c : Compiler := ⟨retType, code, code.length⟩
  (compileBlock c fuel ⟨[], 0, 0⟩ .Block).bind fun (blk, _) => .ok blk

/-! ## Concrete fixtures used by the evaluation theorems -/

/-- A trivial execution context: invoking any function returns no value
and leaves the store unchanged. -/
def vm0 : VmState := ⟨fun store _ => .ok (none, store)⟩

/-- A concrete store with one local (value 0) and an empty operand
stack. -/
def store0 : Store := ⟨⟨[⟨0⟩], []⟩⟩

/-- A function body containing one nested plain block that returns the
constant 5, for a function declaring an i32 result. -/
def c1_code : List Instruction := [.Block, .I32Const 5, .Return, .End, .End]

/-- The number of steps of the root Block compiled from c1_code. -/
def c1_stepCount : Option Nat :=
  match compileFunction (some .I32) c1_code 32 with
  | .ok b => some b.eval.length
  | _ => none

/-- The result of invoking the function compiled from c1_code. -/
def c1_invoke : RunRes (Option StackValue × Store) :=
  match compileFunction (some .I32) c1_code 32 with
  | .ok b => funcInvoke b vm0 store0
  | _ => .trap .DivisionByZero

/-- A step closure yielding a Branch to depth 1. -/
def c2_branchStep : EvalFunc := fun _ store => .ok (.Branch 1, store)

/-- A compiled Loop Block at depth 1 whose single step branches to the
Block itself (the loop back edge, br 0 inside the loop). -/
def c2_loopBlock : Block := ⟨.Loop, 1, [c2_branchStep]⟩

/-- Modelled from the spec: 64 bit shl with the shift amount masked to
W - 1 bits, that is taken modulo the width 64. -/
def wasmShl64 (l r : StackValue) : StackValue :=
  ⟨l.bits % 2 ^ 64 * 2 ^ (r.bits % 64) % 2 ^ 64⟩

/-- A function body with an if that has an else arm. -/
def c7_code : List Instruction := [.GetLocal 0, .If, .Else, .End, .End]

/-- A function body with an if without else whose then arm returns 3. -/
def c7_noelse_code : List Instruction :=
  [.GetLocal 0, .If, .I32Const 3, .Return, .End, .End]

/-- Invoke the function compiled from c7_noelse_code with the given value
in local 0. -/
def c7_invoke (localVal : Nat) : RunRes (Option StackValue × Store) :=
  match compileFunction (some .I32) c7_noelse_code 32 with
  | .ok b => funcInvoke b vm0 ⟨⟨[⟨localVal⟩], []⟩⟩
  | _ => .trap .DivisionByZero

/-! ## Helper lemmas on the numeric encodings -/

lemma u64pat_cast (x : Int) : ((u64pat x : Nat) : Int) = x % 2 ^ 64 := by
  unfold u64pat
  exact Int.toNat_of_nonneg (Int.emod_nonneg x (by norm_num))

lemma emod64_emod32 (x : Int) : x % 2 ^ 64 % 2 ^ 32 = x % 2 ^ 32 :=
  Int.emod_emod_of_dvd x (by norm_num)

lemma wrap32_mod (x : Int) : wrap32 x % 2 ^ 32 = x % 2 ^ 32 := by
  unfold wrap32; omega

lemma wrap64_mod (x : Int) : wrap64 x % 2 ^ 64 = x % 2 ^ 64 := by
  unfold wrap64; omega

lemma toI32_mod (n : Nat) : toI32 n % 2 ^ 32 = (n : Int) % 2 ^ 32 := by
  unfold toI32
  split <;> omega

lemma toI64_mod (n : Nat) : toI64 n % 2 ^ 64 = (n : Int) % 2 ^ 64 := by
  unfold toI64
  split <;> omega

/-! ## Theorems settling the claims -/

/-- Claim C1: the claim states that for every structured opener (block,
loop, if) the recursively compiled child Block becomes one step of the
parent Block.  The code violates this for block and loop: the child Block
returned by compile_block / compile_loop is discarded.  Evaluated at the
failing input c1_code (a block wrapping return 5): the compiled root Block
has zero steps, and invoking the compiled function panics with the
missing-Return unreachable instead of returning 5. -/
theorem c1_child_block_discarded :
    c1_stepCount = some 0 ∧
    c1_invoke = .panicked "Compiled function missing Return action." := by
  exact ⟨rfl, rfl⟩

/-- Claim C2: the claim states that a step yielding Branch at the Block
own depth exits the block normally (Plain/If/Else) or restarts it (Loop).
The code instead hits the todo macro: evaluated at the failing input (a
Loop Block at depth 1 whose step yields Branch 1), Block::run panics. -/
theorem c2_branch_at_own_depth_panics :
    c2_loopBlock.run vm0 store0 = .panicked "not yet implemented: handle branch" := by
  exact rfl

/-- Claim C3: for every binary operator body f and relational operator
body g, the closure actually pushed by the generators (specialized
whenever the popped operand shapes allow it) is extensionally equal to the
fully generic closure that resolves both operands, on every operand shape
combination, every execution context and every store. -/
theorem c3_specialization_unobservable :
    ∀ (f : StackValue → StackValue → StackValue) (g : StackValue → StackValue → Bool)
      (left right : Input) (vm : VmState) (store : Store),
      binopCompiled f left right vm store = binopGeneric f left right vm store ∧
      relopCompiled g left right vm store = relopGeneric g left right vm store := by
  intro f g left right vm store
  constructor <;> cases left <;> cases right <;> rfl

/-- Claim C4: the claim states the shift amount is masked to W - 1 bits
for both widths.  The source masks with the literal 0x1F for the 64 bit
width as well, so i64 shl of 1 by 96 yields 1 (96 AND 0x1F = 0) where the
claimed modulo-64 semantics yields 2 to the 32 (96 mod 64 = 32); the 32
bit instantiation does follow the claim (1 shl 33 = 2). -/
theorem c4_i64_shift_mask_wrong :
    i64_shl ⟨1⟩ ⟨96⟩ = ⟨1⟩ ∧
    wasmShl64 ⟨1⟩ ⟨96⟩ = ⟨4294967296⟩ ∧
    i64_shl ⟨1⟩ ⟨96⟩ ≠ wasmShl64 ⟨1⟩ ⟨96⟩ ∧
    i64_shr_u ⟨4294967296⟩ ⟨96⟩ = ⟨4294967296⟩ ∧
    i32_shl ⟨1⟩ ⟨33⟩ = ⟨2⟩ := by
  refine ⟨by decide, by decide, by decide, by decide, by decide⟩

lemma toI32_zero : toI32 (StackValue.mk 0).bits = 0 := by decide

lemma toI64_zero : toI64 (StackValue.mk 0).bits = 0 := by decide

lemma checked_div32_zero (a : Int) : checked_div32 a 0 = none := by
  simp [checked_div32]

lemma checked_rem32_zero (a : Int) : checked_rem32 a 0 = none := by
  simp [checked_rem32]

lemma checked_div64_zero (a : Int) : checked_div64 a 0 = none := by
  simp [checked_div64]

lemma checked_rem64_zero (a : Int) : checked_rem64 a 0 = none := by
  simp [checked_rem64]

lemma divTrapClosure_zero (checked : Int → Int → Option Int) (toI : Nat → Int)
    (h0 : ∀ a, checked a 0 = none) (hz : toI (StackValue.mk 0).bits = 0) (l : StackValue) :
    divTrapClosure checked toI l ⟨0⟩ = .error .DivisionByZero := by
  unfold divTrapClosure
  rw [hz, h0]
  simp

lemma divTrapClosure_kind (checked : Int → Int → Option Int) (toI : Nat → Int)
    (l r : StackValue) (k : TrapKind)
    (h : divTrapClosure checked toI l r = .error k) :
    k = .DivisionByZero ↔ toI r.bits = 0 := by
  unfold divTrapClosure at h
  cases hc : checked (toI l.bits) (toI r.bits) with
  | some res => rw [hc] at h; exact absurd h (by simp)
  | none =>
    rw [hc] at h
    by_cases hr : toI r.bits = 0
    · rw [if_pos hr] at h
      injection h with hk
      subst hk
      simp [hr]
    · rw [if_neg hr] at h
      injection h with hk
      subst hk
      simp [hr]

/-- Claim C5: for both widths, div_s, div_u, rem_s and rem_u with a zero
divisor trap with DivisionByZero for every dividend; div_s with the
minimum representable dividend and divisor -1 traps with
InvalidConversionToInt; and the two kinds are never conflated (an emitted
DivisionByZero is equivalent to the divisor being zero). -/
theorem c5_div_rem_trap_kinds :
    (∀ l : StackValue,
      i32_div_s l ⟨0⟩ = .error .DivisionByZero ∧
      i32_div_u l ⟨0⟩ = .error .DivisionByZero ∧
      i32_rem_s l ⟨0⟩ = .error .DivisionByZero ∧
      i32_rem_u l ⟨0⟩ = .error .DivisionByZero ∧
      i64_div_s l ⟨0⟩ = .error .DivisionByZero ∧
      i64_div_u l ⟨0⟩ = .error .DivisionByZero ∧
      i64_rem_s l ⟨0⟩ = .error .DivisionByZero ∧
      i64_rem_u l ⟨0⟩ = .error .DivisionByZero) ∧
    (i32_div_s ⟨18446744071562067968⟩ ⟨18446744073709551615⟩ = .error .InvalidConversionToInt ∧
     i64_div_s ⟨9223372036854775808⟩ ⟨18446744073709551615⟩ = .error .InvalidConversionToInt ∧
     TrapKind.DivisionByZero ≠ TrapKind.InvalidConversionToInt) ∧
    (∀ (l r : StackValue) (k : TrapKind),
      i32_div_s l r = .error k → (k = .DivisionByZero ↔ toI32 r.bits = 0)) ∧
    (∀ (l r : StackValue) (k : TrapKind),
      i64_div_s l r = .error k → (k = .DivisionByZero ↔ toI64 r.bits = 0)) := by
  refine ⟨?_, ⟨rfl, rfl, by decide⟩, ?_, ?_⟩
  · intro l
    exact ⟨divTrapClosure_zero _ _ checked_div32_zero toI32_zero l,
      divTrapClosure_zero _ _ checked_div32_zero toI32_zero l,
      divTrapClosure_zero _ _ checked_rem32_zero toI32_zero l,
      divTrapClosure_zero _ _ checked_rem32_zero toI32_zero l,
      divTrapClosure_zero _ _ checked_div64_zero toI64_zero l,
      divTrapClosure_zero _ _ checked_div64_zero toI64_zero l,
      divTrapClosure_zero _ _ checked_rem64_zero toI64_zero l,
      divTrapClosure_zero _ _ checked_rem64_zero toI64_zero l⟩
  · intro l r k h
    exact divTrapClosure_kind _ _ l r k h
  · intro l r k h
    exact divTrapClosure_kind _ _ l r k h

/-- Witness for claim C5 at a concrete input: dividing 7 by zero traps
with DivisionByZero, and the non-conflation implication instantiated
there. -/
theorem c5_witness :
    i32_div_s ⟨7⟩ ⟨0⟩ = .error .DivisionByZero ∧
    (TrapKind.DivisionByZero = .DivisionByZero ↔ toI32 (StackValue.mk 0).bits = 0) :=
  ⟨(c5_div_rem_trap_kinds.1 ⟨7⟩).1,
   c5_div_rem_trap_kinds.2.2.1 ⟨7⟩ ⟨0⟩ .DivisionByZero ((c5_div_rem_trap_kinds.1 ⟨7⟩).1)⟩

/-- Claim C6: the compiled add, sub and mul of both widths wrap silently
modulo 2 to the width on the cell bit patterns for all inputs; the closure
emitted for them never traps (it yields ok on every store and context);
and the boundary cases wrap (i32 max + 1 gives the i32 min cell pattern,
i32 min - 1 gives the max, and likewise for i64). -/
theorem c6_add_sub_mul_wrap :
    (∀ l r : StackValue,
      ((i32_add l r).bits : Int) % 2 ^ 32 = ((l.bits : Int) + (r.bits : Int)) % 2 ^ 32 ∧
      ((i32_sub l r).bits : Int) % 2 ^ 32 = ((l.bits : Int) - (r.bits : Int)) % 2 ^ 32 ∧
      ((i32_mul l r).bits : Int) % 2 ^ 32 = ((l.bits : Int) * (r.bits : Int)) % 2 ^ 32 ∧
      ((i64_add l r).bits : Int) = ((l.bits : Int) + (r.bits : Int)) % 2 ^ 64 ∧
      ((i64_sub l r).bits : Int) = ((l.bits : Int) - (r.bits : Int)) % 2 ^ 64 ∧
      ((i64_mul l r).bits : Int) = ((l.bits : Int) * (r.bits : Int)) % 2 ^ 64) ∧
    (∀ (l r : StackValue) (vm : VmState) (store : Store),
      binopCompiled i32_add (.Const l) (.Const r) vm store = .ok (i32_add l r, store) ∧
      binopCompiled i32_sub (.Const l) (.Const r) vm store = .ok (i32_sub l r, store) ∧
      binopCompiled i32_mul (.Const l) (.Const r) vm store = .ok (i32_mul l r, store) ∧
      binopCompiled i64_add (.Const l) (.Const r) vm store = .ok (i64_add l r, store) ∧
      binopCompiled i64_sub (.Const l) (.Const r) vm store = .ok (i64_sub l r, store) ∧
      binopCompiled i64_mul (.Const l) (.Const r) vm store = .ok (i64_mul l r, store)) ∧
    (i32_add ⟨2147483647⟩ ⟨1⟩ = ⟨18446744071562067968⟩ ∧
     i32_sub ⟨18446744071562067968⟩ ⟨1⟩ = ⟨2147483647⟩ ∧
     i64_add ⟨9223372036854775807⟩ ⟨1⟩ = ⟨9223372036854775808⟩ ∧
     i64_sub ⟨9223372036854775808⟩ ⟨1⟩ = ⟨9223372036854775807⟩) := by
  refine ⟨?_, ?_, by decide, by decide, by decide, by decide⟩
  · intro l r
    refine ⟨?_, ?_, ?_, ?_, ?_, ?_⟩
    · simp only [i32_add]
      rw [u64pat_cast, emod64_emod32, wrap32_mod]
      exact Int.ModEq.add (toI32_mod l.bits) (toI32_mod r.bits)
    · simp only [i32_sub]
      rw [u64pat_cast, emod64_emod32, wrap32_mod]
      exact Int.ModEq.sub (toI32_mod l.bits) (toI32_mod r.bits)
    · simp only [i32_mul]
      rw [u64pat_cast, emod64_emod32, wrap32_mod]
      exact Int.ModEq.mul (toI32_mod l.bits) (toI32_mod r.bits)
    · simp only [i64_add]
      rw [u64pat_cast, wrap64_mod]
      exact Int.ModEq.add (toI64_mod l.bits) (toI64_mod r.bits)
    · simp only [i64_sub]
      rw [u64pat_cast, wrap64_mod]
      exact Int.ModEq.sub (toI64_mod l.bits) (toI64_mod r.bits)
    · simp only [i64_mul]
      rw [u64pat_cast, wrap64_mod]
      exact Int.ModEq.mul (toI64_mod l.bits) (toI64_mod r.bits)
  · intro l r vm store
    exact ⟨rfl, rfl, rfl, rfl, rfl, rfl⟩

/-- Claim C7: the claim states an if with an else arm compiles to a step
closure selecting between the two arms.  The code cannot compile any if
with an else arm: compile_else is entered with the cursor still on the
Else opcode, so the else-arm block immediately reads Else under kind Else
and compilation fails with a validation error.  The if without else does
compile and behave as claimed: with a non-zero condition local the then
arm returns, and the emitted no-else step yields End (store untouched) on
a zero constant condition and runs the then Block on a non-zero one. -/
theorem c7_if_else_compile_fails :
    compileFunction (some .I32) c7_code 32 =
      .err (.ValidationError "invalid else block, missing if") ∧
    c7_invoke 5 = .ok (some ⟨3⟩, ⟨⟨[⟨5⟩], []⟩⟩) ∧
    (∀ b : Block,
      ifStep (.Const ⟨0⟩) b none vm0 store0 = .ok (.End, store0) ∧
      ifStep (.Const ⟨1⟩) b none vm0 store0 = b.run vm0 store0) := by
  exact ⟨rfl, rfl, fun b => ⟨rfl, rfl⟩⟩

lemma c8_aux (c : Compiler) (fuel depth pc : Nat) (kind : BlockKind) (blk : Block)
    (op : Instruction) (vt : ValueType)
    (hpc : pc ≤ c.pc_end) (hop : c.code.get? pc = some op)
    (hcons : op = .I32Add ∨ op = .I32Sub ∨ op = .I32LtS ∨ op = .If ∨
             (∃ i, op = .Call i) ∨ (op = .Return ∧ c.ret_type = some vt)) :
    compileIter c (fuel + 2) ⟨[], depth, pc⟩ kind blk =
      .err (.ValidationError "Value stack empty") := by
  have hlt : ¬ pc > c.pc_end := Nat.not_lt.mpr hpc
  have hfetch : fetchInst c.code pc = .ok op := by
    unfold fetchInst
    rw [hop]
  rcases hcons with h | h | h | h | ⟨i, h⟩ | ⟨h, hrt⟩ <;> subst h
  · simp only [compileIter, if_neg hlt, hfetch, CResult.bind, binopPush, State.pop]
  · simp only [compileIter, if_neg hlt, hfetch, CResult.bind, binopPush, State.pop]
  · simp only [compileIter, if_neg hlt, hfetch, CResult.bind, relopPush, State.pop]
  · simp only [compileIter, if_neg hlt, hfetch, CResult.bind, compileIf, State.pop]
  · simp only [compileIter, if_neg hlt, hfetch, CResult.bind, State.pop]
  · simp only [compileIter, if_neg hlt, hfetch, CResult.bind, emitReturn, hrt, State.pop]

/-- Claim C8: reaching a consuming instruction (binary or relational
operator, if, call, or return under a declared return type) with an empty
compile-time operand stack makes compilation fail with the returned
validation error (operand stack underflow): no panic and no compiled
closure.  The second part propagates the error through compile_function
for a stream starting with such an operator. -/
theorem c8_operand_underflow_is_error :
    (∀ (c : Compiler) (fuel depth pc : Nat) (kind : BlockKind) (blk : Block)
       (op : Instruction) (vt : ValueType),
       pc ≤ c.pc_end → c.code.get? pc = some op →
       (op = .I32Add ∨ op = .I32Sub ∨ op = .I32LtS ∨ op = .If ∨
        (∃ i, op = .Call i) ∨ (op = .Return ∧ c.ret_type = some vt)) →
       compileIter c (fuel + 2) ⟨[], depth, pc⟩ kind blk =
         .err (.ValidationError "Value stack empty")) ∧
    (∀ (rt : Option ValueType) (rest : List Instruction) (fuel : Nat),
       compileFunction rt (.I32Add :: rest) (fuel + 3) =
         .err (.ValidationError "Value stack empty")) := by
  constructor
  · intro c fuel depth pc kind blk op vt hpc hop hcons
    exact c8_aux c fuel depth pc kind blk op vt hpc hop hcons
  · intro rt rest fuel
    have h := c8_aux ⟨rt, .I32Add :: rest, (Instruction.I32Add :: rest).length⟩ fuel 1 0 .Block
      ⟨.Block, 0, []⟩ .I32Add .I32 (Nat.zero_le _) rfl (Or.inl rfl)
    simp only [List.length_cons] at h
    simp [compileFunction, compileBlock, CResult.bind, h]

/-- Witness for claim C8 at a concrete input: a one-instruction stream
consisting of i32.add alone, compiled with an empty operand stack. -/
theorem c8_witness :
    0 ≤ 1 ∧ ([Instruction.I32Add].get? 0 = some Instruction.I32Add) ∧
    compileIter ⟨none, [Instruction.I32Add], 1⟩ 2 ⟨[], 1, 0⟩ .Block ⟨.Block, 0, []⟩ =
      .err (.ValidationError "Value stack empty") :=
  ⟨Nat.zero_le 1, rfl,
    c8_operand_underflow_is_error.1 ⟨none, [Instruction.I32Add], 1⟩ 0 1 0 .Block ⟨.Block, 0, []⟩
      .I32Add .I32 (Nat.zero_le 1) rfl (Or.inl rfl)⟩

/-- Claim C9: the claim states that opcodes without a handler make
compilation fail with a reported compile-time failure.  The code instead
panics: the br, br_if and br_table arms and the dispatch fall-through arm
are todo macros, so compiling such a stream is a panic, not a returned
CompileError. -/
theorem c9_unhandled_opcode_panics :
    compileFunction none [.Br 0] 16 = .panicked "not yet implemented" ∧
    compileFunction none [.BrIf 0] 16 = .panicked "not yet implemented" ∧
    compileFunction none [.BrTable] 16 = .panicked "not yet implemented" ∧
    compileFunction none [.Other] 16 = .panicked "not yet implemented: implment opcode" := by
  exact ⟨rfl, rfl, rfl, rfl⟩

/-- Claim C10: when a block is not terminated by an End (or Else) opcode
and the cursor reaches pc_end (the code length, as set by
compile_function), the loop guard (which only breaks past pc_end) lets the
indexing expression read self.code at the code length: an out of bounds
panic, not a returned CompileError.  Instantiated by compiling a function
whose stream has no End at all. -/
theorem c10_pc_end_index_out_of_bounds :
    (∀ (c : Compiler) (fuel : Nat) (st : State) (kind : BlockKind) (blk : Block),
      c.pc_end = c.code.length → st.pc = c.code.length →
      compileIter c (fuel + 1) st kind blk = .panicked "index out of bounds") ∧
    compileFunction none [.I32Const 1] 32 = .panicked "index out of bounds" := by
  constructor
  · intro c fuel st kind blk h1 h2
    have hnone : c.code.get? st.pc = none := by
      rw [h2]
      exact List.get?_eq_none.mpr (Nat.le_refl _)
    have hfetch : fetchInst c.code st.pc = .panicked "index out of bounds" := by
      unfold fetchInst
      rw [hnone]
    have hlt : ¬ st.pc > c.pc_end := by omega
    simp only [compileIter, if_neg hlt, hfetch, CResult.bind]
  · rfl

/-- Witness for claim C10 at a concrete input: the one-instruction stream
i32.const 1 with the cursor at the code length. -/
theorem c10_witness :
    (1 = 1) ∧
    compileIter ⟨none, [Instruction.I32Const 1], 1⟩ 5 ⟨[], 1, 1⟩ .Block ⟨.Block, 0, []⟩ =
      .panicked "index out of bounds" :=
  ⟨rfl,
    c10_pc_end_index_out_of_bounds.1 ⟨none, [Instruction.I32Const 1], 1⟩ 4 ⟨[], 1, 1⟩
      .Block ⟨.Block, 0, []⟩ rfl rfl⟩

end S1vm
